import Mathlib

/-!
Shallow embedding of the U-Sleep API Python bindings (usleep_api/usleep_api.py
and usleep_api/utils.py).

The client is a thin HTTP wrapper: every operation issues one or more requests
and either returns a value or raises a Python exception.  We embed an operation
as a pair of the list of observable events it emits (requests issued, files
written, text printed) and an Except value for its result.  Outcomes of remote
calls are supplied by an environment oracle, so theorems quantify over all
server behaviours, including failures at every step.
-/

set_option autoImplicit false

namespace USleep

/-- Python exception kinds raised by the client code. -/
inductive Err : Type where
  /-- a transport-level failure raised by the requests library -/
  | transport : Err
  /-- conversion of a response body to JSON failed (ValueError or JSONDecodeError) -/
  | jsonDecode : Err
  /-- the ValueError raised by set_model for a model name not in the advertised list -/
  | invalidModel : Err
  /-- a ValueError raised elsewhere (non-200 stream or download response, bad suffix) -/
  | valueError : Err
  /-- the AssertionError raised by the download file-type assert -/
  | assertionError : Err
  /-- an AttributeError, e.g. accessing a missing attribute on a str object -/
  | attributeError : Err
  /-- marker for a run whose poll oracle is exhausted: the Python loop would keep
      polling forever; such non-terminating runs are outside every claim -/
  | oracleExhausted : Err
deriving DecidableEq, Repr

/-- Entries of the flat indexed predict payload: running entry index, channel
name, owning group index, mirroring the keys channels-k and channel_group_idx-k. -/
structure PredictEntry : Type where
  idx : Nat
  channel : String
  groupIdx : Nat
deriving DecidableEq, Repr

/-- Form data attached to a POST request. -/
inductive PostData : Type where
  /-- the set_model form body -/
  | modelData : String → PostData
  /-- the predict form body: data_per_prediction plus the flattened group entries -/
  | predictData : Int → List PredictEntry → PostData
  /-- the multipart file upload body -/
  | fileData : PostData
deriving DecidableEq, Repr

/-- Observable events of a client run. -/
inductive Ev : Type where
  /-- a GET request to an endpoint -/
  | getReq : String → Ev
  /-- a POST request to an endpoint with its form data -/
  | postReq : String → PostData → Ev
  /-- a DELETE request to an endpoint -/
  | deleteReq : String → Ev
  /-- a local file written with the given text content -/
  | writeFile : String → String → Ev
  /-- a chunk printed to stdout by the verbose stream -/
  | printLog : String → Ev
deriving DecidableEq, Repr

/-- Computations are a list of emitted events paired with a result or a raised
exception.  Events emitted before a raise are kept, as in Python. -/
abbrev M (α : Type) : Type := List Ev × Except Err α

/-- Pure computation: no events, a value. -/
def mret {α : Type} (a : α) : M α := ([], Except.ok a)

/-- Sequencing: on an exception the continuation never runs, but events already
emitted stay observable; this mirrors Python exception propagation. -/
def mbind {α β : Type} (m : M α) (f : α → M β) : M β :=
  match m with
  | (evs, Except.error e) => (evs, Except.error e)
  | (evs, Except.ok a) => ((evs ++ (f a).1), (f a).2)

/-- Endpoint of a named session: the fixed sleep-stager base with the session name appended. -/
def sessionEndpoint (name : String) : String :=
  "/api/v1/sleep_stager/" ++ name

/-- Endpoint listing available models. -/
def modelNamesEndpoint : String := "/api/v1/info/model_names"

/-- Endpoint selecting the model of a session. -/
def setModelEndpoint (name : String) : String :=
  sessionEndpoint name ++ "/set_model"

/-- Endpoint holding the uploaded file of a session. -/
def fileEndpoint (name : String) : String :=
  sessionEndpoint name ++ "/file"

/-- Endpoint exposing configuration options of a session. -/
def configurationOptionsEndpoint (name : String) : String :=
  sessionEndpoint name ++ "/configuration_options"

/-- Endpoint exposing a server configuration variable. -/
def configVariableEndpoint (variable_ : String) : String :=
  "/api/v1/info/config/" ++ variable_

/-- Endpoint reporting prediction status of a session. -/
def statusEndpoint (name : String) : String :=
  sessionEndpoint name ++ "/prediction_status"

/-- Endpoint streaming the prediction log of a session. -/
def streamEndpoint (name : String) : String :=
  sessionEndpoint name ++ "/prediction_log_stream"

/-- Endpoint returning the hypnogram of a session. -/
def hypnogramEndpoint (name : String) : String :=
  sessionEndpoint name ++ "/hypnogram"

/-- Endpoint downloading the hypnogram of a session in a given file format. -/
def downloadEndpoint (name : String) (fileType : String) : String :=
  sessionEndpoint name ++ "/download/hypnogram_" ++ fileType

/-- Endpoint submitting a prediction job for a session. -/
def predictEndpoint (name : String) : String :=
  sessionEndpoint name ++ "/predict"

/-- Outcome of one poll of the prediction_log_stream endpoint. -/
inductive PollOutcome : Type where
  /-- the request itself failed at the transport level -/
  | transportError : PollOutcome
  /-- a response with its status code, its log chunk and its finished flag -/
  | resp : Nat → String → Bool → PollOutcome
deriving DecidableEq, Repr

/-- An HTTP response: status code, optional decoded JSON body (none when the
body is not valid JSON) and raw content. -/
structure HttpResp : Type where
  status : Nat
  jsonBody : Option String
  content : String
deriving DecidableEq, Repr

/-- JSON body of the session file endpoint: channel names and the channel types
inferred for them by the server. -/
structure FileInfo : Type where
  channels : List String
  inferredChannelTypes : List String
deriving DecidableEq, Repr

/-- Environment oracle fixing the outcome of every remote interaction of one
client run.  An Except.error entry means the corresponding call raises. -/
structure Env : Type where
  /-- models field of the model_names endpoint, or a decode or transport failure -/
  modelNames : Except Err (List String)
  /-- outcome of anonymizing the input before upload, when requested -/
  anonymizeResult : Except Err Unit
  /-- outcome of the file upload POST -/
  uploadResult : Except Err Unit
  /-- decoded body of the session file endpoint -/
  fileInfo : Except Err FileInfo
  /-- required_channels field of the configuration options endpoint -/
  requiredChannels : Except Err (List (List String))
  /-- MAX_CHANNEL_COMBINATIONS configuration variable -/
  maxChannelCombinations : Except Err Int
  /-- outcome of the predict POST -/
  predictResult : Except Err Unit
  /-- successive outcomes of the prediction_log_stream polls -/
  polls : List PollOutcome
  /-- label field of the prediction status endpoint -/
  statusLabel : Except Err String
  /-- raw response of the hypnogram endpoint -/
  hypnogramResp : Except Err HttpResp
  /-- raw response of the hypnogram download endpoint -/
  downloadResp : Except Err HttpResp
  /-- outcome of the session DELETE -/
  deleteResult : Except Err Unit

/-- Embeds USleepAPI.get_model_names: one GET, body decoded as JSON, field
models extracted. -/
def get_model_names (env : Env) : M (List String) :=
  ([Ev.getReq modelNamesEndpoint], env.modelNames)

/-- Embeds USleepAPI.set_model: fetch the advertised model list, raise the
invalid-model ValueError when the name is absent, otherwise POST it. -/
def set_model (env : Env) (s : String) (modelStr : String) : M Unit :=
  mbind (get_model_names env) fun names =>
    if modelStr ∈ names then
      ([Ev.postReq (setModelEndpoint s) (PostData.modelData modelStr)], Except.ok ())
    else
      ([], Except.error Err.invalidModel)

/-- Embeds USleepAPI.upload_file: optionally anonymize first (any failure there,
including the AttributeError of utils.temp_anonymized_edf on a str path,
prevents the POST), then POST the multipart body. -/
def upload_file (env : Env) (s : String) (anonymizeBeforeUpload : Bool) : M Unit :=
  match anonymizeBeforeUpload, env.anonymizeResult with
  | true, Except.error e => ([], Except.error e)
  | _, _ => ([Ev.postReq (fileEndpoint s) PostData.fileData], env.uploadResult)

/-- Embeds USleepAPI.get_file_info: one GET of the session file endpoint,
decoded as JSON. -/
def get_file_info (env : Env) (s : String) : M FileInfo :=
  ([Ev.getReq (fileEndpoint s)], env.fileInfo)

/-- Embeds USleepAPI.get_configuration_options restricted to the
required_channels field, the only one the client reads. -/
def get_configuration_options (env : Env) (s : String) : M (List (List String)) :=
  ([Ev.getReq (configurationOptionsEndpoint s)], env.requiredChannels)

/-- Embeds USleepAPI.get_config_variable for MAX_CHANNEL_COMBINATIONS, the only
variable the client requests. -/
def get_config_variable (env : Env) (variable_ : String) : M Int :=
  ([Ev.getReq (configVariableEndpoint variable_)], env.maxChannelCombinations)

/-- Embeds USleepAPI.get_status restricted to the label field of its JSON
body, the only one the client reads. -/
def get_status (env : Env) (s : String) : M String :=
  ([Ev.getReq (statusEndpoint s)], env.statusLabel)

/-- Embeds USleepAPI.get_hypnogram results: either the decoded JSON body or the
raw response object, depending on the status code. -/
inductive HypResult : Type where
  /-- the decoded JSON body, returned on status 200 -/
  | json : String → HypResult
  /-- the raw response object, returned unchanged on any other status -/
  | raw : HttpResp → HypResult
deriving DecidableEq, Repr

/-- Embeds USleepAPI.get_hypnogram: one GET; on status 200 the body is decoded
as JSON (raising on invalid JSON), any other status returns the raw response. -/
def get_hypnogram (env : Env) (s : String) : M HypResult :=
  match env.hypnogramResp with
  | Except.error e => ([Ev.getReq (hypnogramEndpoint s)], Except.error e)
  | Except.ok r =>
    if r.status = 200 then
      match r.jsonBody with
      | some j => ([Ev.getReq (hypnogramEndpoint s)], Except.ok (HypResult.json j))
      | none => ([Ev.getReq (hypnogramEndpoint s)], Except.error Err.jsonDecode)
    else
      ([Ev.getReq (hypnogramEndpoint s)], Except.ok (HypResult.raw r))

/-- Embeds USleepAPI.delete_session: one DELETE of the session endpoint. -/
def delete_session (env : Env) (s : String) : M Unit :=
  ([Ev.deleteReq (sessionEndpoint s)], env.deleteResult)

/-- Embeds USleepAPI.new_session_context: the context manager yields a fresh
session and deletes it in a finally block, so the DELETE is issued on every
exit path; an exception raised by the DELETE itself replaces the body outcome,
as in Python try/finally. -/
def new_session_context {α : Type} (env : Env) (s : String) (body : M α) : M α :=
  (body.1 ++ [Ev.deleteReq (sessionEndpoint s)],
   match env.deleteResult with
   | Except.error de => Except.error de
   | Except.ok _ => body.2)

/-- Embeds Python str.lower character-wise; the labels compared in this client
are plain ASCII, where the two functions agree. -/
def pyLower (s : String) : String :=
  String.mk (s.data.map Char.toLower)

/-- Inner loop of USleepAPI.stream_prediction_log: one call of the local
stream function per list entry.  A non-200 response raises ValueError, a
transport failure raises; otherwise a truthy (non-empty) chunk is printed when
verbose and appended, and the loop continues while finished is false.  The
oracle list bounds the observed run; exhausting it marks a run the Python loop
would continue past, which no claim concerns. -/
def streamLoop (s : String) (verbose : Bool) : List PollOutcome → M (List String)
  | [] => ([], Except.error Err.oracleExhausted)
  | PollOutcome.transportError :: _ =>
      ([Ev.getReq (streamEndpoint s)], Except.error Err.transport)
  | PollOutcome.resp status log finished :: rest =>
      if status = 200 then
        let evs := Ev.getReq (streamEndpoint s) ::
          (if log ≠ "" && verbose then [Ev.printLog log] else [])
        let chunk := if log ≠ "" then [log] else []
        if finished then
          (evs, Except.ok chunk)
        else
          match streamLoop s verbose rest with
          | (evs2, Except.error e) => (evs ++ evs2, Except.error e)
          | (evs2, Except.ok l) => (evs ++ evs2, Except.ok (chunk ++ l))
      else
        ([Ev.getReq (streamEndpoint s)], Except.error Err.valueError)

/-- Embeds USleepAPI.stream_prediction_log: run the polling loop, join the
accumulated chunks, then query the status and compare its lowercased label
with the literal completed. -/
def stream_prediction_log (env : Env) (s : String) (verbose : Bool) :
    M (Bool × String) :=
  mbind (streamLoop s verbose env.polls) fun chunks =>
  mbind (get_status env s) fun label =>
  mret (pyLower label == "completed", String.join chunks)

/-- Embeds the matching_channels comprehension of _infer_channel_groups: for
each required slot, the file channels whose inferred type is a member of the
slot, in file order. -/
def matchingChannels (channels types : List String)
    (requiredTypes : List (List String)) : List (List String) :=
  requiredTypes.map fun required =>
    ((channels.zip types).filter fun ct => ct.2 ∈ required).map fun ct => ct.1

/-- Embeds itertools.product over a list of lists: all selections of one
element per inner list, in lexicographic order of positions. -/
def listProduct {α : Type} : List (List α) → List (List α)
  | [] => [[]]
  | l :: ls => l.flatMap fun x => (listProduct ls).map fun xs => x :: xs

/-- Embeds the Python slice l[:m] for an int m: a nonnegative stop takes a
prefix, a negative stop counts from the end, clamped at zero. -/
def pySliceTo {α : Type} (l : List α) (m : Int) : List α :=
  if m < 0 then l.take (l.length - m.natAbs) else l.take m.toNat

/-- Pure core of USleepAPI._infer_channel_groups: Cartesian product of the
per-slot matching channels, truncated to the MAX_CHANNEL_COMBINATIONS limit. -/
def infer_channel_groups_pure (channels types : List String)
    (requiredTypes : List (List String)) (maxGroups : Int) : List (List String) :=
  pySliceTo (listProduct (matchingChannels channels types requiredTypes)) maxGroups

/-- Embeds USleepAPI._infer_channel_groups: fetch file info, configuration
options and the combination limit, then compute the truncated product. -/
def _infer_channel_groups (env : Env) (s : String) : M (List (List String)) :=
  mbind (get_file_info env s) fun fi =>
  mbind (get_configuration_options env s) fun requiredTypes =>
  mbind (get_config_variable env "MAX_CHANNEL_COMBINATIONS") fun maxGroups =>
  mret (infer_channel_groups_pure fi.channels fi.inferredChannelTypes
    requiredTypes maxGroups)

/-- Inner loop of the predict serialization over one group: one entry per
channel, with the running entry counter k and the owning group index. -/
def serializeChannels (k groupIdx : Nat) : List String → List PredictEntry
  | [] => []
  | c :: cs => ⟨k, c, groupIdx⟩ :: serializeChannels (k + 1) groupIdx cs

/-- Outer loop of the predict serialization: groups in order, the entry counter
running across group boundaries. -/
def serializeGroupsAux (groupIdx k : Nat) : List (List String) → List PredictEntry
  | [] => []
  | g :: gs => serializeChannels k groupIdx g ++
      serializeGroupsAux (groupIdx + 1) (k + g.length) gs

/-- Embeds the flattening loop of USleepAPI.predict: keys channels-k and
channel_group_idx-k for a running counter k over groups then channels. -/
def serializeChannelGroups (gs : List (List String)) : List PredictEntry :=
  serializeGroupsAux 0 0 gs

/-- Embeds USleepAPI.predict: the form data holds int(data_per_prediction) and
the flattened groups (inferred when none are given), then one POST.  The int
coercion of an int argument is the identity; no positivity check occurs. -/
def predict (env : Env) (s : String) (dataPerPrediction : Int)
    (channelGroups : Option (List (List String))) : M Unit :=
  match channelGroups with
  | some gs =>
      ([Ev.postReq (predictEndpoint s)
          (PostData.predictData dataPerPrediction (serializeChannelGroups gs))],
        env.predictResult)
  | none =>
      mbind (_infer_channel_groups env s) fun gs =>
      ([Ev.postReq (predictEndpoint s)
          (PostData.predictData dataPerPrediction (serializeChannelGroups gs))],
        env.predictResult)

/-- Helper for the Python str.rfind embedding: index of the last occurrence
seen so far, walking the characters left to right. -/
def rfindAux (c : Char) : List Char → Nat → Int → Int
  | [], _, acc => acc
  | x :: xs, i, acc => rfindAux c xs (i + 1) (if x = c then Int.ofNat i else acc)

/-- Embeds Python str.rfind for a single character: highest index holding the
character, or -1 when absent. -/
def pyRfind (s : String) (c : Char) : Int :=
  rfindAux c s.data 0 (-1)

/-- Embeds posixpath.splitext: split at the last dot after the last separator,
except when every character between them is a dot (a leading-dot file name has
no extension). -/
def pySplitext (p : String) : String × String :=
  let chars := p.data
  let sepIndex := pyRfind p '/'
  let dotIndex := pyRfind p '.'
  if sepIndex < dotIndex then
    let d := dotIndex.toNat
    let f := (sepIndex + 1).toNat
    if (List.take (d - f) (List.drop f chars)).any fun c => !(c = '.') then
      (String.mk (chars.take d), String.mk (chars.drop d))
    else (p, "")
  else (p, "")

/-- Embeds the final path component used by pathlib for plain relative or
absolute file paths without a trailing separator. -/
def pathlibName (p : String) : String :=
  String.mk (p.data.drop (pyRfind p '/' + 1).toNat)

/-- Embeds the pathlib suffix property: extension of the final component when
its last dot sits strictly inside the component, otherwise empty. -/
def pathlibSuffix (p : String) : String :=
  let name := pathlibName p
  let i := pyRfind name '.'
  if 0 < i ∧ i < (name.length : Int) - 1 then
    String.mk (name.data.drop i.toNat)
  else ""

/-- Embeds Python str.strip with a dot argument: remove leading and trailing
dots. -/
def pyStripDots (s : String) : String :=
  String.mk (((s.data.dropWhile fun c => c = '.').reverse.dropWhile
    fun c => c = '.').reverse)

/-- Embeds USleepAPI.download_hypnogram: normalize and assert the file type,
GET the download endpoint, and on status 200 write the body at the input path
with its extension replaced by the file type; any other status raises. -/
def download_hypnogram (env : Env) (s : String) (outPath fileType : String) :
    M Unit :=
  let ft := pyStripDots fileType
  if ft ∈ ["tsv", "txt", "npy"] then
    match env.downloadResp with
    | Except.error e => ([Ev.getReq (downloadEndpoint s ft)], Except.error e)
    | Except.ok r =>
      if r.status = 200 then
        ([Ev.getReq (downloadEndpoint s ft),
          Ev.writeFile ((pySplitext outPath).1 ++ "." ++ ft) r.content],
          Except.ok ())
      else
        ([Ev.getReq (downloadEndpoint s ft)], Except.error Err.valueError)
  else
    ([], Except.error Err.assertionError)

/-- Embeds the with-block of USleepAPI.quick_predict (the throwaway session
name, random hex in the source, is passed as a parameter): set the model,
upload, log file info, submit the prediction, stream the log to completion; on
success fetch the hypnogram and optionally download it under the corrected
extension, on failure the hypnogram is none; finally persist the log when a
log path was given and return the pair. -/
def quick_predict_body (env : Env) (sessionName : String) (model : String)
    (outputFilePath logFilePath : Option String)
    (anonymizeBeforeUpload : Bool) (dataPerPrediction : Int)
    (channelGroups : Option (List (List String))) (streamLog : Bool) :
    M (Option HypResult × String) :=
  mbind (set_model env sessionName model) fun _ =>
  mbind (upload_file env sessionName anonymizeBeforeUpload) fun _ =>
  mbind (get_file_info env sessionName) fun _ =>
  mbind (predict env sessionName dataPerPrediction channelGroups) fun _ =>
  mbind (stream_prediction_log env sessionName streamLog) fun res =>
  mbind (if res.1 then
           mbind (get_hypnogram env sessionName) fun hyp =>
           match outputFilePath with
           | some op =>
               mbind (download_hypnogram env sessionName
                 (pySplitext op).1 (pySplitext op).2) fun _ =>
               mret (some hyp)
           | none => mret (some hyp)
         else mret none) fun hyp =>
  mbind (match logFilePath with
         | some lp => ([Ev.writeFile lp res.2], Except.ok ())
         | none => mret ()) fun _ =>
  mret (hyp, res.2)

/-- Embeds USleepAPI.quick_predict proper: the body above inside the scoped
session context. -/
def quick_predict (env : Env) (sessionName : String) (model : String)
    (outputFilePath logFilePath : Option String)
    (anonymizeBeforeUpload : Bool) (dataPerPrediction : Int)
    (channelGroups : Option (List (List String))) (streamLog : Bool) :
    M (Option HypResult × String) :=
  new_session_context env sessionName
    (quick_predict_body env sessionName model outputFilePath logFilePath
      anonymizeBeforeUpload dataPerPrediction channelGroups streamLog)

/-- A Python argument that is either a plain str or a pathlib Path.  The two
behave alike under Path(...) construction, but only Path carries a suffix
attribute; reading it on a str raises AttributeError. -/
inductive PyPath : Type where
  | str : String → PyPath
  | path : String → PyPath
deriving DecidableEq, Repr

/-- Underlying text of a str or Path argument. -/
def PyPath.asString : PyPath → String
  | PyPath.str s => s
  | PyPath.path s => s

/-- Embeds Python str.ljust: pad on the right with spaces up to the width. -/
def pyLjust (s : String) (w : Nat) : String :=
  s ++ String.mk (List.replicate (w - s.length) ' ')

/-- ASCII encoding of a string as a byte list. -/
def asciiBytes (s : String) : List Nat :=
  s.data.map Char.toNat

/-- Embeds a file write at a seek position: overwrite in place, zero-fill any
gap past the end, extend when the write runs past the end. -/
def fileWrite (c : List Nat) (pos : Nat) (bs : List Nat) : List Nat :=
  c.take pos ++ List.replicate (pos - c.length) 0 ++ bs ++ c.drop (pos + bs.length)

/-- The byte-level effect of utils.temp_anonymized_edf on the copied stream:
seek to offset 8, then four consecutive writes of the placeholder fields. -/
def anonymizeBytes (c : List Nat) : List Nat :=
  let w1 := fileWrite c 8 (asciiBytes (pyLjust "X X X X_X" 80))
  let w2 := fileWrite w1 88 (asciiBytes (pyLjust "Startdate 01-JAN-1970 X X X" 80))
  let w3 := fileWrite w2 168 (asciiBytes "01.01.70")
  fileWrite w3 176 (asciiBytes "00.00.00")

/-- The 176 placeholder bytes written at offsets 8 through 183. -/
def anonHeaderBytes : List Nat :=
  asciiBytes (pyLjust "X X X X_X" 80 ++ pyLjust "Startdate 01-JAN-1970 X X X" 80
    ++ "01.01.70" ++ "00.00.00")

/-- Embeds utils.temp_anonymized_edf: reject a non-edf suffix with ValueError;
then the temp-file creation reads the suffix attribute of the argument itself,
which raises AttributeError on a str, before any byte is copied; on a Path the
source bytes are copied and the header fields overwritten.  The source content
is a value here, so the original is untouched by construction. -/
def temp_anonymized_edf (filePath : PyPath) (content : List Nat) :
    Except Err (List Nat) :=
  if pathlibSuffix filePath.asString = ".edf" then
    match filePath with
    | PyPath.str _ => Except.error Err.attributeError
    | PyPath.path _ => Except.ok (anonymizeBytes content)
  else
    Except.error Err.valueError


/-- Test distinguishing DELETE requests among events. -/
def isDeleteEv : Ev → Bool
  | Ev.deleteReq _ => true
  | _ => false

/-- Test distinguishing GET requests among events. -/
def isGetEv : Ev → Bool
  | Ev.getReq _ => true
  | _ => false

/-- Concrete environment realizing the poll scenario of the specification:
chunks alpha, empty, beta with the finished flag on the third poll and a
completed status. -/
def envStreamScenario : Env :=
  Env.mk (Except.ok []) (Except.ok ()) (Except.ok ())
    (Except.ok (FileInfo.mk [] [])) (Except.ok []) (Except.ok 0)
    (Except.ok ())
    [PollOutcome.resp 200 "alpha" false, PollOutcome.resp 200 "" false,
      PollOutcome.resp 200 "beta" true]
    (Except.ok "completed") (Except.ok (HttpResp.mk 200 (some "hyp") ""))
    (Except.ok (HttpResp.mk 200 none "")) (Except.ok ())

/-- Environment whose predict POST succeeds; the other outcomes are unused by
the predict path with explicit groups. -/
def envPredictDemo : Env :=
  Env.mk (Except.ok []) (Except.ok ()) (Except.ok ())
    (Except.ok (FileInfo.mk [] [])) (Except.ok []) (Except.ok 0)
    (Except.ok ()) [] (Except.ok "completed")
    (Except.ok (HttpResp.mk 200 (some "hyp") ""))
    (Except.ok (HttpResp.mk 200 none "")) (Except.ok ())

/-- Environment whose hypnogram download answers 200 with fixed content. -/
def envDownloadDemo : Env :=
  Env.mk (Except.ok []) (Except.ok ()) (Except.ok ())
    (Except.ok (FileInfo.mk [] [])) (Except.ok []) (Except.ok 0)
    (Except.ok ()) [] (Except.ok "completed")
    (Except.ok (HttpResp.mk 200 (some "hyp") ""))
    (Except.ok (HttpResp.mk 200 none "stages")) (Except.ok ())

/-- Environment advertising exactly the models A and B. -/
def envModelsAB : Env :=
  Env.mk (Except.ok ["A", "B"]) (Except.ok ()) (Except.ok ())
    (Except.ok (FileInfo.mk [] [])) (Except.ok []) (Except.ok 0)
    (Except.ok ()) [] (Except.ok "completed")
    (Except.ok (HttpResp.mk 200 (some "hyp") ""))
    (Except.ok (HttpResp.mk 200 none "")) (Except.ok ())

/-- Number of GET requests in a trace. -/
def countGet (evs : List Ev) : Nat :=
  evs.countP fun e => isGetEv e

/-- Number of DELETE requests in a trace. -/
def countDelete (evs : List Ev) : Nat :=
  evs.countP fun e => isDeleteEv e

/-- Group structure recovered from a flat indexed payload: for each group
index in range, the channels carrying that owning index, in payload order. -/
def deserializeGroups (numGroups : Nat) (entries : List PredictEntry) :
    List (List String) :=
  (List.range numGroups).map fun i =>
    (entries.filter fun e => e.groupIdx = i).map fun e => e.channel

/-- Environment whose hypnogram endpoint answers 200 with a JSON body. -/
def envHyp200 : Env :=
  Env.mk (Except.ok []) (Except.ok ()) (Except.ok ())
    (Except.ok (FileInfo.mk [] [])) (Except.ok []) (Except.ok 0)
    (Except.ok ()) [] (Except.ok "completed")
    (Except.ok (HttpResp.mk 200 (some "hyp") "raw"))
    (Except.ok (HttpResp.mk 200 none "")) (Except.ok ())

/-- Environment whose hypnogram endpoint answers 500 with a non-JSON body. -/
def envHyp500 : Env :=
  Env.mk (Except.ok []) (Except.ok ()) (Except.ok ())
    (Except.ok (FileInfo.mk [] [])) (Except.ok []) (Except.ok 0)
    (Except.ok ()) [] (Except.ok "completed")
    (Except.ok (HttpResp.mk 500 none "err"))
    (Except.ok (HttpResp.mk 200 none "")) (Except.ok ())

/-- Environment of a full orchestrator run whose remote job ends without the
completed status: every client step succeeds, the single poll finishes the
stream with the chunk oops, and the status label is failed. -/
def envQuickFail : Env :=
  Env.mk (Except.ok ["U-Sleep v1.0"]) (Except.ok ()) (Except.ok ())
    (Except.ok (FileInfo.mk ["C3"] ["EEG"])) (Except.ok [["EEG"]])
    (Except.ok 1) (Except.ok ())
    [PollOutcome.resp 200 "oops" true] (Except.ok "failed")
    (Except.ok (HttpResp.mk 200 (some "hyp") ""))
    (Except.ok (HttpResp.mk 200 none "")) (Except.ok ())

/-! Theorems.  The helper lemmas below support the claim theorems and are
shared between them. -/


theorem isDeleteEv_getReq (e : String) : isDeleteEv (Ev.getReq e) = false := rfl

theorem isDeleteEv_postReq (e : String) (d : PostData) :
    isDeleteEv (Ev.postReq e d) = false := rfl

theorem isDeleteEv_writeFile (p c : String) :
    isDeleteEv (Ev.writeFile p c) = false := rfl

theorem isDeleteEv_printLog (s : String) : isDeleteEv (Ev.printLog s) = false := rfl

theorem countDelete_nil : countDelete [] = 0 := rfl

theorem countDelete_append (a b : List Ev) :
    countDelete (a ++ b) = countDelete a + countDelete b :=
  List.countP_append _ _ _

theorem countDelete_cons (e : Ev) (l : List Ev) :
    countDelete (e :: l) = countDelete l + (if isDeleteEv e then 1 else 0) := by
  simp [countDelete, List.countP_cons]

/-- Sequencing two delete-free computations is delete-free. -/
theorem countDelete_mbind {α β : Type} (m : M α) (f : α → M β)
    (h1 : countDelete m.1 = 0) (h2 : ∀ a, countDelete (f a).1 = 0) :
    countDelete (mbind m f).1 = 0 := by
  rcases m with ⟨evs, r⟩
  cases r with
  | error e => simpa [mbind] using h1
  | ok a => simp [mbind, countDelete_append, h1, h2]

theorem countDelete_mret {α : Type} (a : α) : countDelete (mret a).1 = 0 := rfl

theorem countDelete_get_model_names (env : Env) :
    countDelete (get_model_names env).1 = 0 := rfl

theorem countDelete_set_model (env : Env) (s m : String) :
    countDelete (set_model env s m).1 = 0 := by
  unfold set_model
  apply countDelete_mbind _ _ (countDelete_get_model_names env)
  intro names
  by_cases h : m ∈ names <;>
    simp [h, countDelete, List.countP_cons, isDeleteEv_postReq]

theorem countDelete_upload_file (env : Env) (s : String) (anon : Bool) :
    countDelete (upload_file env s anon).1 = 0 := by
  unfold upload_file
  rcases anon with _ | _ <;> rcases h : env.anonymizeResult with e | u <;>
    simp [h, countDelete, List.countP_cons, isDeleteEv_postReq]

theorem countDelete_get_file_info (env : Env) (s : String) :
    countDelete (get_file_info env s).1 = 0 := rfl

theorem countDelete_get_configuration_options (env : Env) (s : String) :
    countDelete (get_configuration_options env s).1 = 0 := rfl

theorem countDelete_get_config_variable (env : Env) (v : String) :
    countDelete (get_config_variable env v).1 = 0 := rfl

theorem countDelete_get_status (env : Env) (s : String) :
    countDelete (get_status env s).1 = 0 := rfl

theorem countDelete_get_hypnogram (env : Env) (s : String) :
    countDelete (get_hypnogram env s).1 = 0 := by
  unfold get_hypnogram
  rcases h : env.hypnogramResp with e | r
  · simp [countDelete, List.countP_cons, isDeleteEv_getReq]
  · by_cases h200 : r.status = 200
    · rcases hj : r.jsonBody with _ | j <;>
        simp [h200, hj, countDelete, List.countP_cons, isDeleteEv_getReq]
    · simp [h200, countDelete, List.countP_cons, isDeleteEv_getReq]

theorem countDelete_streamLoop (s : String) (v : Bool) (polls : List PollOutcome) :
    countDelete (streamLoop s v polls).1 = 0 := by
  induction polls with
  | nil => rfl
  | cons p rest ih =>
    cases p with
    | transportError =>
        simp [streamLoop, countDelete, List.countP_cons, isDeleteEv_getReq]
    | resp status log finished =>
      by_cases h200 : status = 200
      · by_cases hfin : finished
        · by_cases hlog : log ≠ "" && v <;>
            simp_all [streamLoop, countDelete, List.countP_cons,
              isDeleteEv_getReq, isDeleteEv_printLog]
        · rcases hrest : streamLoop s v rest with ⟨evs2, r⟩
          cases r <;>
            by_cases hlog : log ≠ "" && v <;>
              simp_all [streamLoop, countDelete, List.countP_cons,
                List.countP_append, isDeleteEv_getReq, isDeleteEv_printLog]
      · simp [streamLoop, h200, countDelete, List.countP_cons, isDeleteEv_getReq]

theorem countDelete_stream_prediction_log (env : Env) (s : String) (v : Bool) :
    countDelete (stream_prediction_log env s v).1 = 0 := by
  unfold stream_prediction_log
  apply countDelete_mbind _ _ (countDelete_streamLoop s v env.polls)
  intro chunks
  apply countDelete_mbind _ _ (countDelete_get_status env s)
  intro label
  exact countDelete_mret _

theorem countDelete_infer_channel_groups (env : Env) (s : String) :
    countDelete (_infer_channel_groups env s).1 = 0 := by
  unfold _infer_channel_groups
  apply countDelete_mbind _ _ (countDelete_get_file_info env s)
  intro fi
  apply countDelete_mbind _ _ (countDelete_get_configuration_options env s)
  intro req
  apply countDelete_mbind _ _ (countDelete_get_config_variable env _)
  intro mx
  exact countDelete_mret _

theorem countDelete_predict (env : Env) (s : String) (dpp : Int)
    (cgs : Option (List (List String))) :
    countDelete (predict env s dpp cgs).1 = 0 := by
  unfold predict
  cases cgs with
  | some gs => simp [countDelete, List.countP_cons, isDeleteEv_postReq]
  | none =>
    apply countDelete_mbind _ _ (countDelete_infer_channel_groups env s)
    intro gs
    simp [countDelete, List.countP_cons, isDeleteEv_postReq]

theorem countDelete_download_hypnogram (env : Env) (s : String)
    (outPath fileType : String) :
    countDelete (download_hypnogram env s outPath fileType).1 = 0 := by
  unfold download_hypnogram
  by_cases hft : pyStripDots fileType ∈ ["tsv", "txt", "npy"]
  · rcases h : env.downloadResp with e | r
    · simp [hft, h, countDelete, List.countP_cons, isDeleteEv_getReq]
    · by_cases h200 : r.status = 200 <;>
        simp [hft, h, h200, countDelete, List.countP_cons,
          isDeleteEv_getReq, isDeleteEv_writeFile]
  · simp [hft, countDelete]

theorem countDelete_quick_predict_body (env : Env) (sessionName model : String)
    (outP logP : Option String) (anon : Bool) (dpp : Int)
    (cgs : Option (List (List String))) (sl : Bool) :
    countDelete (quick_predict_body env sessionName model outP logP anon dpp
      cgs sl).1 = 0 := by
  unfold quick_predict_body
  apply countDelete_mbind _ _ (countDelete_set_model env sessionName model)
  intro u1
  apply countDelete_mbind _ _ (countDelete_upload_file env sessionName anon)
  intro u2
  apply countDelete_mbind _ _ (countDelete_get_file_info env sessionName)
  intro fi
  apply countDelete_mbind _ _ (countDelete_predict env sessionName dpp cgs)
  intro u3
  apply countDelete_mbind _ _ (countDelete_stream_prediction_log env sessionName sl)
  intro res
  apply countDelete_mbind
  · cases hres : res.1
    · exact countDelete_mret _
    · simp only []
      apply countDelete_mbind _ _ (countDelete_get_hypnogram env sessionName)
      intro hyp
      cases outP with
      | some op =>
        apply countDelete_mbind _ _
          (countDelete_download_hypnogram env sessionName _ _)
        intro u4
        exact countDelete_mret _
      | none => exact countDelete_mret _
  intro hyp
  apply countDelete_mbind
  · cases logP with
    | some lp => simp [countDelete, List.countP_cons, isDeleteEv_writeFile]
    | none => exact countDelete_mret _
  intro u5
  exact countDelete_mret _

/-- C1: every invocation of the quick-predict orchestrator issues exactly one
session-delete call, for the throwaway session it created, on every exit path:
whatever the outcomes of model selection, upload, submission and polling
(success or exception), the trace holds exactly one DELETE request, and that
request targets the session endpoint. -/
theorem quick_predict_deletes_session_exactly_once (env : Env)
    (sessionName model : String) (outP logP : Option String) (anon : Bool)
    (dpp : Int) (cgs : Option (List (List String))) (sl : Bool) :
    countDelete (quick_predict env sessionName model outP logP anon dpp
      cgs sl).1 = 1 ∧
    Ev.deleteReq (sessionEndpoint sessionName) ∈
      (quick_predict env sessionName model outP logP anon dpp cgs sl).1 := by
  constructor
  · show countDelete ((quick_predict_body env sessionName model outP logP anon
      dpp cgs sl).1 ++ [Ev.deleteReq (sessionEndpoint sessionName)]) = 1
    rw [countDelete_append, countDelete_quick_predict_body]
    rfl
  · show Ev.deleteReq (sessionEndpoint sessionName) ∈
      (quick_predict_body env sessionName model outP logP anon dpp cgs sl).1 ++
        [Ev.deleteReq (sessionEndpoint sessionName)]
    exact List.mem_append_right _ (List.mem_singleton.mpr rfl)


/-- Behaviour of the polling loop on a run whose polls all answer 200, with the
finished flag first raised on the last poll: one GET per poll, every event a
stream GET or a printed chunk, and the accumulated chunks are exactly the
non-empty ones in order. -/
theorem streamLoop_ok_run (s : String) (v : Bool) (init : List String)
    (lastChunk : String) :
    ∃ sevs : List Ev,
      streamLoop s v (init.map (fun c => PollOutcome.resp 200 c false) ++
        [PollOutcome.resp 200 lastChunk true]) =
        (sevs, Except.ok ((init ++ [lastChunk]).filter fun c => !(c == ""))) ∧
      countGet sevs = init.length + 1 ∧
      ∀ e ∈ sevs, e = Ev.getReq (streamEndpoint s) ∨ ∃ c, e = Ev.printLog c := by
  induction init with
  | nil =>
    refine ⟨Ev.getReq (streamEndpoint s) ::
      (if lastChunk ≠ "" && v then [Ev.printLog lastChunk] else []), ?_, ?_, ?_⟩
    · by_cases hc : lastChunk = ""
      · simp [streamLoop, hc, List.filter]
      · have hb : (lastChunk == "") = false := beq_eq_false_iff_ne.mpr hc
        simp [streamLoop, hc, hb, List.filter]
    · by_cases hc : lastChunk = "" <;> by_cases hv : v <;>
        simp [hc, hv, countGet, List.countP_cons, isGetEv]
    · intro e he
      by_cases hc : lastChunk = "" <;> by_cases hv : v <;>
        simp_all [isGetEv] <;> tauto
  | cons c init ih =>
    obtain ⟨sevs, heq, hcount, hall⟩ := ih
    refine ⟨(Ev.getReq (streamEndpoint s) ::
      (if c ≠ "" && v then [Ev.printLog c] else [])) ++ sevs, ?_, ?_, ?_⟩
    · by_cases hc : c = ""
      · simp [streamLoop, hc, heq, List.filter]
      · have hb : (c == "") = false := beq_eq_false_iff_ne.mpr hc
        simp [streamLoop, hc, hb, heq, List.filter]
    · by_cases hc : c = "" <;> by_cases hv : v <;>
        simp [hc, hv, countGet, List.countP_append, List.countP_cons, isGetEv] <;>
        simpa [countGet] using hcount
    · intro e he
      rcases List.mem_append.mp he with h1 | h2
      · by_cases hc : c = "" <;> by_cases hv : v <;>
          simp_all <;> tauto
      · exact hall e h2

/-- C2: for a poll-response sequence whose finished flag first turns true on
the last poll, stream_prediction_log issues exactly one GET per poll before the
single status GET, its accumulated log is the concatenation of the non-empty
chunks in poll order, and its success boolean is the case-insensitive
comparison of the status label with the literal completed. -/
theorem stream_prediction_log_run (env : Env) (s : String) (v : Bool)
    (init : List String) (lastChunk label : String)
    (hp : env.polls = init.map (fun c => PollOutcome.resp 200 c false) ++
      [PollOutcome.resp 200 lastChunk true])
    (hl : env.statusLabel = Except.ok label) :
    ∃ sevs : List Ev,
      (stream_prediction_log env s v).1 = sevs ++ [Ev.getReq (statusEndpoint s)] ∧
      countGet sevs = init.length + 1 ∧
      (∀ e ∈ sevs, e = Ev.getReq (streamEndpoint s) ∨ ∃ c, e = Ev.printLog c) ∧
      (stream_prediction_log env s v).2 =
        Except.ok (pyLower label == "completed",
          String.join ((init ++ [lastChunk]).filter fun c => !(c == ""))) ∧
      ((pyLower label == "completed") = true ↔ pyLower label = "completed") := by
  obtain ⟨sevs, heq, hcount, hall⟩ := streamLoop_ok_run s v init lastChunk
  refine ⟨sevs, ?_, hcount, hall, ?_, by simp⟩
  · simp [stream_prediction_log, mbind, hp, heq, get_status, hl, mret]
  · simp [stream_prediction_log, mbind, hp, heq, get_status, hl, mret]

/-- Witness for C2: on the alpha, empty, beta scenario the accumulated log is
alphabeta after exactly three stream polls, with success true. -/
theorem stream_prediction_log_run_witness :
    (stream_prediction_log envStreamScenario "s" true).2 =
      Except.ok (true, "alphabeta") ∧
    (stream_prediction_log envStreamScenario "s" true).1 =
      [Ev.getReq (streamEndpoint "s"), Ev.printLog "alpha",
        Ev.getReq (streamEndpoint "s"), Ev.getReq (streamEndpoint "s"),
        Ev.printLog "beta", Ev.getReq (statusEndpoint "s")] := by
  obtain ⟨sevs, htr, hcount, hall, hres, hiff⟩ :=
    stream_prediction_log_run envStreamScenario "s" true ["alpha", ""] "beta"
      "completed" rfl rfl
  exact ⟨hres.trans (by rfl), by rfl⟩

/-- Number of selections in a Cartesian product of lists: the product of the
lengths. -/
theorem length_listProduct {α : Type} : ∀ ls : List (List α),
    (listProduct ls).length = (ls.map List.length).prod
  | [] => rfl
  | l :: ls => by
    simp [listProduct, List.length_flatMap, Function.comp_def,
      length_listProduct ls, List.map_const', List.sum_replicate, smul_eq_mul]

/-- C3: the number of groups returned by channel-group inference is exactly
the minimum of the advertised maximum and the product of the per-slot matching
channel counts; it never exceeds the maximum, and an empty matching slot gives
the empty group list. -/
theorem infer_channel_groups_count (channels types : List String)
    (requiredTypes : List (List String)) (maxGroups : Int)
    (hM : 0 ≤ maxGroups) :
    (infer_channel_groups_pure channels types requiredTypes maxGroups).length =
      min maxGroups.toNat
        ((matchingChannels channels types requiredTypes).map List.length).prod ∧
    (infer_channel_groups_pure channels types requiredTypes maxGroups).length ≤
      maxGroups.toNat ∧
    ([] ∈ matchingChannels channels types requiredTypes →
      infer_channel_groups_pure channels types requiredTypes maxGroups = []) := by
  have hneg : ¬ maxGroups < 0 := not_lt.mpr hM
  have hlen : (infer_channel_groups_pure channels types requiredTypes
      maxGroups).length = min maxGroups.toNat
        ((matchingChannels channels types requiredTypes).map List.length).prod := by
    simp [infer_channel_groups_pure, pySliceTo, hneg, List.length_take,
      length_listProduct]
  refine ⟨hlen, ?_, ?_⟩
  · rw [hlen]; exact min_le_left _ _
  · intro h
    have hzero : ((matchingChannels channels types requiredTypes).map
        List.length).prod = 0 :=
      List.prod_eq_zero (List.mem_map_of_mem List.length h)
    have : (infer_channel_groups_pure channels types requiredTypes
        maxGroups).length = 0 := by rw [hlen, hzero]; exact Nat.min_zero _
    exact List.eq_nil_of_length_eq_zero this

/-- Witness for C3: three channels, two required slots with two and one
matching channels, maximum two, give exactly two groups. -/
theorem infer_channel_groups_count_witness :
    (0 : Int) ≤ 2 ∧
    ((infer_channel_groups_pure ["C3", "C4", "EOGh"] ["EEG", "EEG", "EOG"]
        [["EEG"], ["EOG"]] 2).length =
      min (Int.toNat 2)
        ((matchingChannels ["C3", "C4", "EOGh"] ["EEG", "EEG", "EOG"]
          [["EEG"], ["EOG"]]).map List.length).prod ∧
    (infer_channel_groups_pure ["C3", "C4", "EOGh"] ["EEG", "EEG", "EOG"]
        [["EEG"], ["EOG"]] 2).length ≤ Int.toNat 2 ∧
    ([] ∈ matchingChannels ["C3", "C4", "EOGh"] ["EEG", "EEG", "EOG"]
        [["EEG"], ["EOG"]] →
      infer_channel_groups_pure ["C3", "C4", "EOGh"] ["EEG", "EEG", "EOG"]
        [["EEG"], ["EOG"]] 2 = [])) :=
  ⟨by decide,
    infer_channel_groups_count ["C3", "C4", "EOGh"] ["EEG", "EEG", "EOG"]
      [["EEG"], ["EOG"]] 2 (by decide)⟩

/-- Counterexample to C4 as stated: with data_per_prediction equal to zero (a
non-positive integer) predict does not reject; it submits the POST carrying
zero and returns the response. -/
theorem predict_accepts_zero_data_per_prediction :
    predict envPredictDemo "s" 0 (some [["C3"]]) =
      ([Ev.postReq (predictEndpoint "s")
          (PostData.predictData 0 [PredictEntry.mk 0 "C3" 0])],
        Except.ok ()) := rfl

/-- C4 amended: predict coerces data_per_prediction with the int builtin (the
identity on integers) and always submits the job with that value; it performs
no positivity check, so zero and negative integers are submitted as-is. -/
theorem predict_submits_without_positivity_check (env : Env) (s : String)
    (dataPerPrediction : Int) (gs : List (List String)) :
    predict env s dataPerPrediction (some gs) =
      ([Ev.postReq (predictEndpoint s)
          (PostData.predictData dataPerPrediction (serializeChannelGroups gs))],
        env.predictResult) := rfl

/-- C5: when the download answers 200, the file is persisted at the input path
with its extension replaced by the requested format; in particular the paths
out.tsv and out both persist at out.tsv for format tsv. -/
theorem download_hypnogram_persisted_path (env : Env) (s outPath : String)
    (r : HttpResp) (hr : env.downloadResp = Except.ok r)
    (h200 : r.status = 200) :
    download_hypnogram env s outPath "tsv" =
      ([Ev.getReq (downloadEndpoint s "tsv"),
        Ev.writeFile ((pySplitext outPath).1 ++ "." ++ "tsv") r.content],
        Except.ok ()) ∧
    (pySplitext "out.tsv").1 ++ "." ++ "tsv" = "out.tsv" ∧
    (pySplitext "out").1 ++ "." ++ "tsv" = "out.tsv" := by
  refine ⟨?_, rfl, rfl⟩
  simp [download_hypnogram, pyStripDots, hr, h200]

/-- Witness for C5: a 200 download response with the path out.tsv persists the
body at exactly out.tsv. -/
theorem download_hypnogram_persisted_path_witness :
    envDownloadDemo.downloadResp = Except.ok (HttpResp.mk 200 none "stages") ∧
    (HttpResp.mk 200 none "stages").status = 200 ∧
    download_hypnogram envDownloadDemo "s" "out.tsv" "tsv" =
      ([Ev.getReq (downloadEndpoint "s" "tsv"),
        Ev.writeFile "out.tsv" "stages"], Except.ok ()) :=
  ⟨rfl, rfl,
    ((download_hypnogram_persisted_path envDownloadDemo "s" "out.tsv"
      (HttpResp.mk 200 none "stages") rfl rfl).1).trans (by rfl)⟩

/-- C6: with the advertised model list decoded, a name absent from the list
makes set_model raise the invalid-model error after only the list GET, with no
POST issued, and the mutating POST appears in the trace exactly when the name
is present. -/
theorem set_model_validates_before_post (env : Env) (s modelStr : String)
    (names : List String) (h : env.modelNames = Except.ok names) :
    (modelStr ∉ names →
      set_model env s modelStr =
        ([Ev.getReq modelNamesEndpoint], Except.error Err.invalidModel)) ∧
    (modelStr ∈ names →
      set_model env s modelStr =
        ([Ev.getReq modelNamesEndpoint,
          Ev.postReq (setModelEndpoint s) (PostData.modelData modelStr)],
          Except.ok ())) ∧
    (Ev.postReq (setModelEndpoint s) (PostData.modelData modelStr) ∈
        (set_model env s modelStr).1 ↔ modelStr ∈ names) := by
  by_cases hm : modelStr ∈ names
  · refine ⟨fun hn => absurd hm hn, fun _ => ?_, ?_⟩
    · simp [set_model, mbind, get_model_names, h, hm]
    · simp [set_model, mbind, get_model_names, h, hm]
  · refine ⟨fun _ => ?_, fun hn => absurd hn hm, ?_⟩
    · simp [set_model, mbind, get_model_names, h, hm]
    · simp [set_model, mbind, get_model_names, h, hm]

/-- Witness for C6: the model U-Sleep v1.0 is absent from the advertised list
containing A and B, so set_model raises without issuing the POST. -/
theorem set_model_validates_before_post_witness :
    envModelsAB.modelNames = Except.ok ["A", "B"] ∧
    ("U-Sleep v1.0" ∉ ["A", "B"] →
      set_model envModelsAB "s" "U-Sleep v1.0" =
        ([Ev.getReq modelNamesEndpoint], Except.error Err.invalidModel)) ∧
    set_model envModelsAB "s" "U-Sleep v1.0" =
      ([Ev.getReq modelNamesEndpoint], Except.error Err.invalidModel) :=
  ⟨rfl,
    (set_model_validates_before_post envModelsAB "s" "U-Sleep v1.0"
      ["A", "B"] rfl).1,
    (set_model_validates_before_post envModelsAB "s" "U-Sleep v1.0"
      ["A", "B"] rfl).1 (by decide)⟩

/-- Writing at the boundary of a known prefix overwrites the start of the tail
and keeps the prefix. -/
theorem fileWrite_at_boundary (A tail bs : List Nat) (pos : Nat)
    (hA : A.length = pos) :
    fileWrite (A ++ tail) pos bs = A ++ bs ++ tail.drop bs.length := by
  subst hA
  have h1 : A.length - (A ++ tail).length = 0 :=
    Nat.sub_eq_zero_of_le (by simp)
  simp [fileWrite, h1, List.take_left, List.drop_append]

/-- The four header writes on a stream holding at least the full overwritten
region replace bytes 8 through 183 with the placeholder block and keep
everything else. -/
theorem anonymizeBytes_eq (c : List Nat) (h : 184 ≤ c.length) :
    anonymizeBytes c = c.take 8 ++ anonHeaderBytes ++ c.drop 184 := by
  have hb1 : (asciiBytes (pyLjust "X X X X_X" 80)).length = 80 := by rfl
  have hb2 : (asciiBytes (pyLjust "Startdate 01-JAN-1970 X X X" 80)).length = 80 := by
    rfl
  have hb3 : (asciiBytes "01.01.70").length = 8 := by rfl
  have hb4 : (asciiBytes "00.00.00").length = 8 := by rfl
  have h8 : (c.take 8).length = 8 := by
    simp [List.length_take]; omega
  have hsplit : c.take 8 ++ c.drop 8 = c := List.take_append_drop 8 c
  have w1 : fileWrite c 8 (asciiBytes (pyLjust "X X X X_X" 80)) =
      c.take 8 ++ asciiBytes (pyLjust "X X X X_X" 80) ++ c.drop 88 := by
    conv_lhs => rw [← hsplit]
    rw [fileWrite_at_boundary _ _ _ _ h8]
    simp [List.drop_drop, hb1]
  have w2 : fileWrite (c.take 8 ++ asciiBytes (pyLjust "X X X X_X" 80) ++
        c.drop 88) 88 (asciiBytes (pyLjust "Startdate 01-JAN-1970 X X X" 80)) =
      (c.take 8 ++ asciiBytes (pyLjust "X X X X_X" 80)) ++
        asciiBytes (pyLjust "Startdate 01-JAN-1970 X X X" 80) ++ c.drop 168 := by
    rw [List.append_assoc, ← List.append_assoc _ _ (c.drop 88)]
    rw [fileWrite_at_boundary _ _ _ 88 (by simp [h8, hb1])]
    simp [List.drop_drop, hb2]
  have w3 : fileWrite ((c.take 8 ++ asciiBytes (pyLjust "X X X X_X" 80)) ++
        asciiBytes (pyLjust "Startdate 01-JAN-1970 X X X" 80) ++ c.drop 168) 168
        (asciiBytes "01.01.70") =
      ((c.take 8 ++ asciiBytes (pyLjust "X X X X_X" 80)) ++
        asciiBytes (pyLjust "Startdate 01-JAN-1970 X X X" 80)) ++
        asciiBytes "01.01.70" ++ c.drop 176 := by
    rw [List.append_assoc _ _ (c.drop 168), ← List.append_assoc _ _ (c.drop 168)]
    rw [fileWrite_at_boundary _ _ _ 168 (by simp [h8, hb1, hb2])]
    simp [List.drop_drop, hb3]
  have w4 : fileWrite (((c.take 8 ++ asciiBytes (pyLjust "X X X X_X" 80)) ++
        asciiBytes (pyLjust "Startdate 01-JAN-1970 X X X" 80)) ++
        asciiBytes "01.01.70" ++ c.drop 176) 176 (asciiBytes "00.00.00") =
      (((c.take 8 ++ asciiBytes (pyLjust "X X X X_X" 80)) ++
        asciiBytes (pyLjust "Startdate 01-JAN-1970 X X X" 80)) ++
        asciiBytes "01.01.70") ++ asciiBytes "00.00.00" ++ c.drop 184 := by
    rw [List.append_assoc _ _ (c.drop 176), ← List.append_assoc _ _ (c.drop 176)]
    rw [fileWrite_at_boundary _ _ _ 176 (by simp [h8, hb1, hb2, hb3])]
    simp [List.drop_drop, hb4]
  show fileWrite (fileWrite (fileWrite (fileWrite c 8 _) 88 _) 168 _) 176 _ = _
  rw [w1, w2, w3, w4]
  have hblock : anonHeaderBytes = asciiBytes (pyLjust "X X X X_X" 80) ++
      asciiBytes (pyLjust "Startdate 01-JAN-1970 X X X" 80) ++
      asciiBytes "01.01.70" ++ asciiBytes "00.00.00" := by rfl
  rw [hblock]
  simp [List.append_assoc]

/-- Intent of the anonymization utility, proven of the embedding for a Path
argument: on a file with the edf suffix and a complete header region the
result has the source length, keeps every byte before offset 8 and from offset
184 on, and carries the fixed placeholder block in between; the source value
itself is never modified, the function being pure in the content. -/
theorem temp_anonymized_edf_path_frame (p : String) (c : List Nat)
    (hsuf : pathlibSuffix p = ".edf") (hlen : 184 ≤ c.length) :
    temp_anonymized_edf (PyPath.path p) c = Except.ok (anonymizeBytes c) ∧
    (anonymizeBytes c).length = c.length ∧
    (anonymizeBytes c).take 8 = c.take 8 ∧
    (anonymizeBytes c).drop 184 = c.drop 184 ∧
    ((anonymizeBytes c).drop 8).take 176 = anonHeaderBytes := by
  have h8 : (c.take 8).length = 8 := by simp [List.length_take]; omega
  have h176 : (anonHeaderBytes : List Nat).length = 176 := by rfl
  have heq := anonymizeBytes_eq c hlen
  refine ⟨by simp [temp_anonymized_edf, PyPath.asString, hsuf], ?_, ?_, ?_, ?_⟩
  · rw [heq]
    simp [List.length_append, h8, h176, List.length_drop]
    omega
  · rw [heq, List.append_assoc, List.take_left' h8]
  · have hpre : (c.take 8 ++ anonHeaderBytes).length = 184 := by
      simp [List.length_append, h8, h176]
    rw [heq, List.drop_left' hpre]
  · rw [heq, List.append_assoc, List.drop_left' h8, List.take_left' h176]

/-- C7 failing-input evaluation: called on a plain str path carrying the edf
extension (the argument type every caller in the repository passes), the
anonymization utility raises AttributeError while creating the temp file,
before any byte is copied, instead of producing the anonymized copy. -/
theorem temp_anonymized_edf_str_raises :
    temp_anonymized_edf (PyPath.str "rec.edf") (List.replicate 200 7) =
      Except.error Err.attributeError := by rfl

/-- Channels of one serialized group, in order. -/
theorem serializeChannels_map_pair (gi : Nat) :
    ∀ (g : List String) (k : Nat),
      (serializeChannels k gi g).map (fun e => (e.channel, e.groupIdx)) =
        g.map fun c => (c, gi)
  | [], _ => rfl
  | c :: cs, k => by
    simp [serializeChannels, serializeChannels_map_pair gi cs (k + 1)]

/-- Entry indices of one serialized group: consecutive from the running
counter. -/
theorem serializeChannels_map_idx (gi : Nat) :
    ∀ (g : List String) (k : Nat),
      (serializeChannels k gi g).map PredictEntry.idx = List.range' k g.length
  | [], _ => rfl
  | c :: cs, k => by
    simp [serializeChannels, List.range', serializeChannels_map_idx gi cs (k + 1)]

/-- Flat channel and group-index pairs of the serialized payload: the groups
enumerated from the starting index, flattened in order. -/
theorem serializeGroupsAux_map_pair :
    ∀ (gs : List (List String)) (gi k : Nat),
      (serializeGroupsAux gi k gs).map (fun e => (e.channel, e.groupIdx)) =
        (List.enumFrom gi gs).flatMap fun p => p.2.map fun c => (c, p.1)
  | [], _, _ => rfl
  | g :: gs, gi, k => by
    simp [serializeGroupsAux, List.enumFrom, serializeChannels_map_pair gi g k,
      serializeGroupsAux_map_pair gs (gi + 1) (k + g.length)]

/-- Entry indices of the serialized payload: consecutive from the running
counter across all groups. -/
theorem serializeGroupsAux_map_idx :
    ∀ (gs : List (List String)) (gi k : Nat),
      (serializeGroupsAux gi k gs).map PredictEntry.idx =
        List.range' k (gs.map List.length).sum
  | [], _, _ => rfl
  | g :: gs, gi, k => by
    have happ := List.range'_append k g.length (gs.map List.length).sum 1
    simp only [one_mul] at happ
    simp [serializeGroupsAux, serializeChannels_map_idx gi g k,
      serializeGroupsAux_map_idx gs (gi + 1) (k + g.length), happ,
      Nat.add_comm]

/-- Every entry of a serialized group carries the owning group index. -/
theorem serializeChannels_groupIdx (gi : Nat) :
    ∀ (g : List String) (k : Nat),
      ∀ e ∈ serializeChannels k gi g, e.groupIdx = gi
  | [], _ => by intro e he; cases he
  | c :: cs, k => by
    intro e he
    rcases he with _ | he
    · rfl
    · exact serializeChannels_groupIdx gi cs (k + 1) e (by assumption)

/-- Filtering a serialized group on its own index keeps every entry. -/
theorem serializeChannels_filter_self (gi : Nat) :
    ∀ (g : List String) (k : Nat),
      (serializeChannels k gi g).filter (fun e => e.groupIdx = gi) =
        serializeChannels k gi g
  | [], _ => rfl
  | c :: cs, k => by
    simp [serializeChannels, serializeChannels_filter_self gi cs (k + 1)]

/-- Filtering a serialized group on a different index keeps nothing. -/
theorem serializeChannels_filter_ne (gi j : Nat) (hne : j ≠ gi) :
    ∀ (g : List String) (k : Nat),
      (serializeChannels k gi g).filter (fun e => e.groupIdx = j) = []
  | [], _ => rfl
  | c :: cs, k => by
    simp [serializeChannels, Ne.symm hne,
      serializeChannels_filter_ne gi j hne cs (k + 1)]

/-- Channels of a serialized group, recovered in order. -/
theorem serializeChannels_map_channel (gi : Nat) :
    ∀ (g : List String) (k : Nat),
      (serializeChannels k gi g).map (fun e => e.channel) = g
  | [], _ => rfl
  | c :: cs, k => by
    simp [serializeChannels, serializeChannels_map_channel gi cs (k + 1)]

/-- All serialized entries carry group indices at or above the starting
index, so filtering on a smaller index keeps nothing. -/
theorem serializeGroupsAux_filter_lt (j : Nat) :
    ∀ (gs : List (List String)) (gi k : Nat), j < gi →
      (serializeGroupsAux gi k gs).filter (fun e => e.groupIdx = j) = []
  | [], _, _, _ => rfl
  | g :: gs, gi, k, h => by
    simp [serializeGroupsAux, List.filter_append,
      serializeChannels_filter_ne gi j (Nat.ne_of_lt h) g k,
      serializeGroupsAux_filter_lt j gs (gi + 1) (k + g.length)
        (Nat.lt_succ_of_lt h)]

/-- Recovering each group of the serialized payload by its owning index gives
back the input groups, for any starting index and counter. -/
theorem deserialize_serializeGroupsAux :
    ∀ (gs : List (List String)) (gi k : Nat),
      (List.range gs.length).map (fun i =>
        ((serializeGroupsAux gi k gs).filter fun e => e.groupIdx = gi + i).map
          fun e => e.channel) = gs
  | [], _, _ => rfl
  | g :: gs, gi, k => by
    have ih := deserialize_serializeGroupsAux gs (gi + 1) (k + g.length)
    rw [List.length_cons, List.range_succ_eq_map, List.map_cons, List.map_map]
    refine congrArg₂ List.cons ?_ ?_
    · simp [serializeGroupsAux, List.filter_append,
        serializeChannels_filter_self gi g k,
        serializeGroupsAux_filter_lt gi gs (gi + 1) (k + g.length)
          (Nat.lt_succ_self gi),
        serializeChannels_map_channel gi g k]
    · refine (List.map_congr_left ?_).trans ih
      intro i _
      have h1 : gi + (i + 1) = gi + 1 + i := by omega
      have h2 : gi ≠ gi + (i + 1) := by omega
      simp only [Function.comp_def, serializeGroupsAux, List.filter_append,
        List.map_append, h1]
      rw [serializeChannels_filter_ne gi (gi + 1 + i) (by omega) g k]
      simp

/-- C8: the flat indexed predict payload lists, for each channel across all
groups in group-then-channel order, the channel with its owning group index;
the entry counters are consecutive from zero, and the ordered pairs recover
the input group structure exactly. -/
theorem predict_payload_contract (gs : List (List String)) :
    (serializeChannelGroups gs).map (fun e => (e.channel, e.groupIdx)) =
      (gs.enum).flatMap (fun p => p.2.map fun c => (c, p.1)) ∧
    (serializeChannelGroups gs).map PredictEntry.idx =
      List.range (gs.map List.length).sum ∧
    deserializeGroups gs.length (serializeChannelGroups gs) = gs := by
  refine ⟨?_, ?_, ?_⟩
  · simpa [serializeChannelGroups, List.enum] using
      serializeGroupsAux_map_pair gs 0 0
  · rw [serializeChannelGroups, serializeGroupsAux_map_idx gs 0 0,
      List.range_eq_range']
  · have h := deserialize_serializeGroupsAux gs 0 0
    simpa [deserializeGroups, serializeChannelGroups] using h

theorem mbind_ok {α β : Type} (evs : List Ev) (a : α) (f : α → M β) :
    mbind (evs, Except.ok a) f = (evs ++ (f a).1, (f a).2) := rfl

theorem mbind_error {α β : Type} (evs : List Ev) (e : Err) (f : α → M β) :
    mbind (evs, Except.error e) f = (evs, Except.error e) := rfl

/-- C9: when every client step succeeds but the polling loop ends with success
false (the job finished without the completed status), the orchestrator does
not raise: it returns no hypnogram together with the accumulated log, and when
a log path was given the full log is written to it. -/
theorem quick_predict_failure_returns_log (env : Env)
    (sessionName model : String) (outP logP : Option String) (anon : Bool)
    (dpp : Int) (cgs : Option (List (List String))) (sl : Bool)
    (pevs sevs : List Ev) (names : List String) (fi : FileInfo) (log : String)
    (hm : env.modelNames = Except.ok names)
    (hmem : model ∈ names)
    (hanon : env.anonymizeResult = Except.ok ())
    (hu : env.uploadResult = Except.ok ())
    (hf : env.fileInfo = Except.ok fi)
    (hp : predict env sessionName dpp cgs = (pevs, Except.ok ()))
    (hs : stream_prediction_log env sessionName sl = (sevs, Except.ok (false, log)))
    (hd : env.deleteResult = Except.ok ()) :
    (quick_predict env sessionName model outP logP anon dpp cgs sl).2 =
      Except.ok (none, log) ∧
    ∀ lp, logP = some lp →
      Ev.writeFile lp log ∈
        (quick_predict env sessionName model outP logP anon dpp cgs sl).1 := by
  have hsm : set_model env sessionName model =
      ([Ev.getReq modelNamesEndpoint,
        Ev.postReq (setModelEndpoint sessionName) (PostData.modelData model)],
        Except.ok ()) := by
    simp [set_model, get_model_names, mbind, hm, hmem]
  have hup : upload_file env sessionName anon =
      ([Ev.postReq (fileEndpoint sessionName) PostData.fileData],
        Except.ok ()) := by
    cases anon <;> simp [upload_file, hanon, hu]
  have hfi : get_file_info env sessionName =
      ([Ev.getReq (fileEndpoint sessionName)], Except.ok fi) := by
    simp [get_file_info, hf]
  have hbody : quick_predict_body env sessionName model outP logP anon dpp
      cgs sl =
      ([Ev.getReq modelNamesEndpoint,
        Ev.postReq (setModelEndpoint sessionName) (PostData.modelData model)] ++
        ([Ev.postReq (fileEndpoint sessionName) PostData.fileData] ++
          ([Ev.getReq (fileEndpoint sessionName)] ++
            (pevs ++ (sevs ++
              ((match logP with
                | some lp => [Ev.writeFile lp log]
                | none => []) ++ []))))),
        Except.ok (none, log)) := by
    rw [quick_predict_body, hsm, mbind_ok, hup, mbind_ok, hfi, mbind_ok, hp,
      mbind_ok, hs, mbind_ok]
    cases logP with
    | some lp => simp [mbind, mbind, mret]
    | none => simp [mbind, mret]
  have hqp : quick_predict env sessionName model outP logP anon dpp cgs sl =
      ((quick_predict_body env sessionName model outP logP anon dpp cgs
          sl).1 ++ [Ev.deleteReq (sessionEndpoint sessionName)],
        match env.deleteResult with
        | Except.error de => Except.error de
        | Except.ok _ =>
            (quick_predict_body env sessionName model outP logP anon dpp cgs
              sl).2) := rfl
  constructor
  · rw [hqp]
    simp [hd, hbody]
  · intro lp hlp
    subst hlp
    rw [hqp]
    simp [hbody]

/-- Witness for C9: a concrete run whose job ends with the label failed
returns no hypnogram, the log oops, and writes the log file. -/
theorem quick_predict_failure_returns_log_witness :
    (quick_predict envQuickFail "s" "U-Sleep v1.0" none (some "log.txt") false
      3840 (some [["C3"]]) false).2 = Except.ok (none, "oops") ∧
    Ev.writeFile "log.txt" "oops" ∈
      (quick_predict envQuickFail "s" "U-Sleep v1.0" none (some "log.txt")
        false 3840 (some [["C3"]]) false).1 := by
  have h := quick_predict_failure_returns_log envQuickFail "s" "U-Sleep v1.0"
    none (some "log.txt") false 3840 (some [["C3"]]) false
    [Ev.postReq (predictEndpoint "s")
      (PostData.predictData 3840 [PredictEntry.mk 0 "C3" 0])]
    [Ev.getReq (streamEndpoint "s"), Ev.getReq (statusEndpoint "s")]
    ["U-Sleep v1.0"] (FileInfo.mk ["C3"] ["EEG"]) "oops"
    rfl (by decide) rfl rfl rfl rfl rfl rfl
  exact ⟨h.1, h.2 "log.txt" rfl⟩

/-- C10: get_hypnogram hands back the decoded JSON body on a 200 response and
the raw response object, unchanged and without raising, on any other status,
so callers receive one of two result shapes depending on the status code. -/
theorem get_hypnogram_result_by_status (env : Env) (s : String) (r : HttpResp)
    (h : env.hypnogramResp = Except.ok r) :
    (∀ j, r.status = 200 → r.jsonBody = some j →
      get_hypnogram env s =
        ([Ev.getReq (hypnogramEndpoint s)], Except.ok (HypResult.json j))) ∧
    (r.status ≠ 200 →
      get_hypnogram env s =
        ([Ev.getReq (hypnogramEndpoint s)], Except.ok (HypResult.raw r))) := by
  constructor
  · intro j h200 hj
    simp [get_hypnogram, h, h200, hj]
  · intro h200
    simp [get_hypnogram, h, h200]

/-- Witness for C10: a 200 response yields the decoded body and a 500 response
yields the raw response object. -/
theorem get_hypnogram_result_by_status_witness :
    get_hypnogram envHyp200 "s" =
      ([Ev.getReq (hypnogramEndpoint "s")], Except.ok (HypResult.json "hyp")) ∧
    get_hypnogram envHyp500 "s" =
      ([Ev.getReq (hypnogramEndpoint "s")],
        Except.ok (HypResult.raw (HttpResp.mk 500 none "err"))) :=
  ⟨(get_hypnogram_result_by_status envHyp200 "s"
      (HttpResp.mk 200 (some "hyp") "raw") rfl).1 "hyp" rfl rfl,
    (get_hypnogram_result_by_status envHyp500 "s"
      (HttpResp.mk 500 none "err") rfl).2 (by decide)⟩

end USleep
